import Mathlib

/-!
Verification of the spacetime-crawler4py core against its natural-language
specification. The Python source (analytics.py, validator.py, scraper.py,
crawler/frontier.py, crawler/worker.py) is shallowly embedded: machine
integers become Nat with explicit masking by 2^64, Python dicts become
association lists or functions, sets become lists queried by membership,
and the external collaborators (the DOM text extractor, urlparse's netloc
field, the fetcher) become explicit function parameters.
-/

/-! ## Bit-counting (analytics.py: `_hamming_distance_64`, `int.bit_count`) -/

/-- Fuel-indexed population count; `fuel ≥ n` makes it exact. Structural
recursion on the fuel keeps it kernel-reducible. -/
def popCountAux : Nat → Nat → Nat
  | 0, _ => 0
  | fuel + 1, n => if n = 0 then 0 else n % 2 + popCountAux fuel (n / 2)

/-- Population count of a natural number, as Python's `int.bit_count`. -/
def popCount (n : Nat) : Nat := popCountAux n n

/-- `_hamming_distance_64` from analytics.py: popcount of the XOR. -/
def hamming_distance_64 (a b : Nat) : Nat := popCount (a ^^^ b)

theorem popCountAux_zero (fuel : Nat) : popCountAux fuel 0 = 0 := by
  cases fuel <;> simp [popCountAux]

theorem popCountAux_congr :
    ∀ fuel fuel' n, n ≤ fuel → n ≤ fuel' → popCountAux fuel n = popCountAux fuel' n := by
  intro fuel
  induction fuel with
  | zero =>
    intro fuel' n hn _
    have : n = 0 := Nat.le_zero.mp hn
    subst this
    simp [popCountAux, popCountAux_zero]
  | succ f ih =>
    intro fuel' n hn hn'
    by_cases h0 : n = 0
    · subst h0
      simp [popCountAux_zero]
    · have hpos : 1 ≤ n := Nat.one_le_iff_ne_zero.mpr h0
      cases fuel' with
      | zero => omega
      | succ f' =>
        have hdiv : n / 2 < n := Nat.div_lt_self (Nat.lt_of_lt_of_le Nat.zero_lt_one hpos) (by omega)
        have h1 : n / 2 ≤ f := by omega
        have h2 : n / 2 ≤ f' := by omega
        simp only [popCountAux, if_neg h0]
        rw [ih f' (n / 2) h1 h2]

theorem popCount_mod_div (n : Nat) : popCount n = n % 2 + popCount (n / 2) := by
  by_cases h0 : n = 0
  · subst h0
    simp [popCount, popCountAux]
  · have hpos : 1 ≤ n := Nat.one_le_iff_ne_zero.mpr h0
    cases hn : n with
    | zero => omega
    | succ m =>
      subst hn
      show popCountAux (m + 1) (m + 1) = (m + 1) % 2 + popCount ((m + 1) / 2)
      simp only [popCountAux, if_neg h0]
      congr 1
      exact popCountAux_congr m ((m + 1) / 2) ((m + 1) / 2) (by omega) (le_refl _)

theorem popCount_zero : popCount 0 = 0 := rfl

/-- Splitting a number at bit position `k` splits its popcount. -/
theorem popCount_split :
    ∀ k a b, a < 2 ^ k → popCount (a + 2 ^ k * b) = popCount a + popCount b := by
  intro k
  induction k with
  | zero =>
    intro a b ha
    have : a = 0 := by omega
    subst this
    simp [popCount_zero]
  | succ k ih =>
    intro a b ha
    have hrw : a + 2 ^ (k + 1) * b = a + 2 * (2 ^ k * b) := by ring
    rw [hrw]
    rw [popCount_mod_div (a + 2 * (2 ^ k * b))]
    have hmod : (a + 2 * (2 ^ k * b)) % 2 = a % 2 := by
      omega
    have hdiv : (a + 2 * (2 ^ k * b)) / 2 = a / 2 + 2 ^ k * b := by
      omega
    rw [hmod, hdiv]
    have hahalf : a / 2 < 2 ^ k := by
      have : 2 ^ (k + 1) = 2 * 2 ^ k := by ring
      omega
    rw [ih (a / 2) b hahalf]
    rw [popCount_mod_div a]
    ring

theorem popCount_pos (n : Nat) (h : n ≠ 0) : 0 < popCount n := by
  induction n using Nat.strong_induction_on with
  | _ n ih =>
    rw [popCount_mod_div]
    rcases Nat.mod_two_eq_zero_or_one n with h2 | h2
    · have hn2 : n / 2 ≠ 0 := by omega
      have := ih (n / 2) (Nat.div_lt_self (Nat.pos_of_ne_zero h) (by omega)) hn2
      omega
    · omega

/-! ## SimHash bands (analytics.py: `SIMHASH_BITS`, `BAND_BITS`, `_bands`) -/

def SIMHASH_BITS : Nat := 64

def NEAR_DUP_THRESHOLD : Nat := 4

def BAND_BITS : Nat := 16

def BAND_COUNT : Nat := SIMHASH_BITS / BAND_BITS

def BAND_MASK : Nat := (1 <<< BAND_BITS) - 1

/-- The value of band `band_id` of a fingerprint: `(fp >> shift) & BAND_MASK`
with `shift = band_id * BAND_BITS`, as in `_bands`. -/
def band_val (fp band_id : Nat) : Nat := (fp >>> (band_id * BAND_BITS)) &&& BAND_MASK

/-- `_bands` from analytics.py: the list of `(band_id, band_value)` pairs. -/
def bands (fp : Nat) : List (Nat × Nat) :=
  (List.range BAND_COUNT).map (fun band_id => (band_id, band_val fp band_id))

theorem band_val_eq_div_mod (fp i : Nat) :
    band_val fp i = fp / 2 ^ (i * BAND_BITS) % 2 ^ BAND_BITS := by
  unfold band_val BAND_MASK
  rw [Nat.one_shiftLeft, Nat.and_pow_two_sub_one_eq_mod, Nat.shiftRight_eq_div_pow]

theorem xor_shiftRight (a b s : Nat) : (a ^^^ b) >>> s = (a >>> s) ^^^ (b >>> s) := by
  apply Nat.eq_of_testBit_eq
  intro i
  simp [Nat.testBit_shiftRight, Nat.testBit_xor]

theorem band_val_xor (a b i : Nat) :
    band_val (a ^^^ b) i = band_val a i ^^^ band_val b i := by
  unfold band_val
  rw [xor_shiftRight, Nat.and_xor_distrib_right]

/-- If the popcount of `x` is at most 3, one of its four 16-bit bands is zero. -/
theorem popCount_le_three_band_zero (x : Nat) (h : popCount x ≤ 3) :
    ∃ i, i < 4 ∧ band_val x i = 0 := by
  by_contra hc
  push_neg at hc
  have h0 : band_val x 0 ≠ 0 := hc 0 (by omega)
  have h1 : band_val x 1 ≠ 0 := hc 1 (by omega)
  have h2 : band_val x 2 ≠ 0 := hc 2 (by omega)
  have h3 : band_val x 3 ≠ 0 := hc 3 (by omega)
  rw [band_val_eq_div_mod] at h0 h1 h2 h3
  simp only [BAND_BITS] at h0 h1 h2 h3
  norm_num at h0 h1 h2 h3
  have e0 : x = x % 2 ^ 16 + 2 ^ 16 * (x / 2 ^ 16) := (Nat.mod_add_div x (2 ^ 16)).symm
  have s0 : popCount x = popCount (x % 2 ^ 16) + popCount (x / 2 ^ 16) := by
    conv_lhs => rw [e0]
    exact popCount_split 16 _ _ (Nat.mod_lt _ (by norm_num))
  have e1 : x / 2 ^ 16 = x / 2 ^ 16 % 2 ^ 16 + 2 ^ 16 * (x / 2 ^ 16 / 2 ^ 16) :=
    (Nat.mod_add_div _ (2 ^ 16)).symm
  have s1 : popCount (x / 2 ^ 16) =
      popCount (x / 2 ^ 16 % 2 ^ 16) + popCount (x / 2 ^ 16 / 2 ^ 16) := by
    conv_lhs => rw [e1]
    exact popCount_split 16 _ _ (Nat.mod_lt _ (by norm_num))
  have d1 : x / 2 ^ 16 / 2 ^ 16 = x / 2 ^ 32 := by
    rw [Nat.div_div_eq_div_mul]
    norm_num
  have s2 : popCount (x / 2 ^ 32) =
      popCount (x / 2 ^ 32 % 2 ^ 16) + popCount (x / 2 ^ 32 / 2 ^ 16) := by
    conv_lhs => rw [(Nat.mod_add_div (x / 2 ^ 32) (2 ^ 16)).symm]
    exact popCount_split 16 _ _ (Nat.mod_lt _ (by norm_num))
  have d2 : x / 2 ^ 32 / 2 ^ 16 = x / 2 ^ 48 := by
    rw [Nat.div_div_eq_div_mul]
    norm_num
  have p0 : 0 < popCount (x % 2 ^ 16) := popCount_pos _ (by simpa using h0)
  have p1 : 0 < popCount (x / 2 ^ 16 % 2 ^ 16) := popCount_pos _ (by simpa using h1)
  have p2 : 0 < popCount (x / 2 ^ 32 % 2 ^ 16) := popCount_pos _ (by simpa using h2)
  have hq : x / 2 ^ 48 ≠ 0 := by
    intro hz
    apply h3
    rw [show (281474976710656 : Nat) = 2 ^ 48 by norm_num, hz]
  have p3 : 0 < popCount (x / 2 ^ 48) := popCount_pos _ hq
  rw [d1] at s1
  rw [d2] at s2
  omega

/-- Pigeonhole for the banded index: fingerprints within Hamming distance 3
agree on at least one of the four 16-bit bands. -/
theorem hamming_le_three_shares_band (a b : Nat) (h : hamming_distance_64 a b ≤ 3) :
    ∃ i, i < 4 ∧ band_val a i = band_val b i := by
  obtain ⟨i, hi, hz⟩ := popCount_le_three_band_zero (a ^^^ b) h
  refine ⟨i, hi, ?_⟩
  rw [band_val_xor] at hz
  exact Nat.xor_eq_zero.mp hz

/-! ## UTF-8 encoding and decoding

Python's `str.encode("utf-8", errors="ignore")` and
`bytes.decode("utf-8", errors="ignore" | "replace")`. Lean `Char` excludes
surrogates, so encoding never hits the error handler; decoding follows
Python's maximal-subpart policy: an invalid sequence consumes its longest
valid prefix (at least one byte) and yields one U+FFFD under `replace`,
nothing under `ignore`. -/

def utf8EncodeChar (c : Char) : List Nat :=
  let n := c.toNat
  if n < 128 then [n]
  else if n < 2048 then [192 + n / 64, 128 + n % 64]
  else if n < 65536 then [224 + n / 4096, 128 + n / 64 % 64, 128 + n % 64]
  else [240 + n / 262144, 128 + n / 4096 % 64, 128 + n / 64 % 64, 128 + n % 64]

def utf8Encode (s : String) : List Nat := (s.data.map utf8EncodeChar).flatten

/-- A UTF-8 continuation byte. -/
def isCont (b : Nat) : Bool := 128 ≤ b && b ≤ 191

/-- Valid range of the first continuation byte after a three-byte lead
(excludes overlong forms after 0xE0 and surrogates after 0xED). -/
def cont1Ok3 (lead c1 : Nat) : Bool :=
  if lead = 224 then 160 ≤ c1 && c1 ≤ 191
  else if lead = 237 then 128 ≤ c1 && c1 ≤ 159
  else isCont c1

/-- Valid range of the first continuation byte after a four-byte lead
(excludes overlong forms after 0xF0 and points above U+10FFFF after 0xF4). -/
def cont1Ok4 (lead c1 : Nat) : Bool :=
  if lead = 240 then 144 ≤ c1 && c1 ≤ 191
  else if lead = 244 then 128 ≤ c1 && c1 ≤ 143
  else isCont c1

/-- What an invalid subsequence decodes to: U+FFFD under `replace`,
nothing under `ignore`. -/
def errorChars (replaceErrors : Bool) : List Char :=
  if replaceErrors then [Char.ofNat 65533] else []

/-- One decoding step: given the first byte `b` and the following bytes,
the characters emitted and how many bytes of `rest` (beyond `b`) were
consumed. Invalid sequences consume their maximal valid prefix and emit
`errorChars`. -/
def utf8DecodeStep (replaceErrors : Bool) (b : Nat) (rest : List Nat) : List Char × Nat :=
  if b < 128 then ([Char.ofNat b], 0)
  else if 194 ≤ b ∧ b ≤ 223 then
    match rest with
    | c1 :: _ =>
      if isCont c1 then ([Char.ofNat ((b - 192) * 64 + (c1 - 128))], 1)
      else (errorChars replaceErrors, 0)
    | [] => (errorChars replaceErrors, 0)
  else if 224 ≤ b ∧ b ≤ 239 then
    match rest with
    | c1 :: c2 :: _ =>
      if cont1Ok3 b c1 then
        if isCont c2 then
          ([Char.ofNat ((b - 224) * 4096 + (c1 - 128) * 64 + (c2 - 128))], 2)
        else (errorChars replaceErrors, 1)
      else (errorChars replaceErrors, 0)
    | [c1] =>
      if cont1Ok3 b c1 then (errorChars replaceErrors, 1)
      else (errorChars replaceErrors, 0)
    | [] => (errorChars replaceErrors, 0)
  else if 240 ≤ b ∧ b ≤ 244 then
    match rest with
    | c1 :: c2 :: c3 :: _ =>
      if cont1Ok4 b c1 then
        if isCont c2 then
          if isCont c3 then
            ([Char.ofNat ((b - 240) * 262144 + (c1 - 128) * 4096 + (c2 - 128) * 64 + (c3 - 128))], 3)
          else (errorChars replaceErrors, 2)
        else (errorChars replaceErrors, 1)
      else (errorChars replaceErrors, 0)
    | [c1, c2] =>
      if cont1Ok4 b c1 then
        if isCont c2 then (errorChars replaceErrors, 2)
        else (errorChars replaceErrors, 1)
      else (errorChars replaceErrors, 0)
    | [c1] =>
      if cont1Ok4 b c1 then (errorChars replaceErrors, 1)
      else (errorChars replaceErrors, 0)
    | [] => (errorChars replaceErrors, 0)
  else (errorChars replaceErrors, 0)

/-- The decoding loop; each step consumes at least the first byte, so a fuel
of the list's length is enough. Structural recursion on the fuel keeps the
decoder kernel-reducible. -/
def utf8DecodeAux (replaceErrors : Bool) : Nat → List Nat → List Char
  | 0, _ => []
  | _ + 1, [] => []
  | fuel + 1, b :: rest =>
    let sc := utf8DecodeStep replaceErrors b rest
    sc.1 ++ utf8DecodeAux replaceErrors fuel (rest.drop sc.2)

def utf8Decode (replaceErrors : Bool) (l : List Nat) : List Char :=
  utf8DecodeAux replaceErrors l.length l

def utf8DecodeStr (replaceErrors : Bool) (bytes : List Nat) : String :=
  String.mk (utf8Decode replaceErrors bytes)

/-! ## FNV-1a (analytics.py: `_fnv1a_64_bytes`, `_fnv1a_64_str`) -/

def fnv1a_64_bytes (data : List Nat) : Nat :=
  data.foldl (fun h b => ((h ^^^ b) * 1099511628211) % (2 ^ 64)) 1469598103934665603

def fnv1a_64_str (s : String) : Nat := fnv1a_64_bytes (utf8Encode s)

/-! ## Text and token pipeline (analytics.py: `STOP_WORDS`, `_html_to_text`,
`_tokenize`, `_term_frequencies`) -/

def STOP_WORDS : List String := [
  "a", "about", "above", "after", "again", "against", "all", "am", "an", "and", "any", "are", "aren't", "as", "at",
  "be", "because", "been", "before", "being", "below", "between", "both", "but", "by", "can't", "cannot", "could",
  "couldn't", "did", "didn't", "do", "does", "doesn't", "doing", "don't", "down", "during", "each", "few", "for",
  "from", "further", "had", "hadn't", "has", "hasn't", "have", "haven't", "having", "he", "he'd", "he'll", "he's",
  "her", "here", "here's", "hers", "herself", "him", "himself", "his", "how", "how's", "i", "i'd", "i'll", "i'm",
  "i've", "if", "in", "into", "is", "isn't", "it", "it's", "its", "itself", "let's", "me", "more", "most", "mustn't",
  "my", "myself", "no", "nor", "not", "of", "off", "on", "once", "only", "or", "other", "ought", "our", "ours",
  "ourselves", "out", "over", "own", "same", "shan't", "she", "she'd", "she'll", "she's", "should", "shouldn't",
  "so", "some", "such", "than", "that", "that's", "the", "their", "theirs", "them", "themselves", "then", "there",
  "there's", "these", "they", "they'd", "they'll", "they're", "they've", "this", "those", "through", "to", "too",
  "under", "until", "up", "very", "was", "wasn't", "we", "we'd", "we'll", "we're", "we've", "were", "weren't",
  "what", "what's", "when", "when's", "where", "where's", "which", "while", "who", "who's", "whom", "why", "why's",
  "with", "won't", "would", "wouldn't", "you", "you'd", "you'll", "you're", "you've", "your", "yours", "yourself",
  "yourselves"]

/-- `_html_to_text`, with the external BeautifulSoup text extraction passed
in as `extract`. The source decodes the bytes with `errors="ignore"`
(the `replaceErrors := false` mode of the decoder). -/
def html_to_text (extract : String → String) (html_content : List Nat) : String :=
  if html_content.isEmpty then ""
  else extract (utf8DecodeStr false html_content)

/-- ASCII lowercase of one character. -/
def pyLowerChar (c : Char) : Char :=
  if 'A' ≤ c && c ≤ 'Z' then Char.ofNat (c.toNat + 32) else c

/-- ASCII-level model of Python's `str.lower` (all characters relevant to
the crawler's checks are ASCII). -/
def pyLower (s : String) : String := String.mk (s.data.map pyLowerChar)

/-- One character of the class `[a-zA-Z0-9]`. -/
def isAlnumAscii (c : Char) : Bool :=
  ('a' ≤ c && c ≤ 'z') || ('A' ≤ c && c ≤ 'Z') || ('0' ≤ c && c ≤ '9')

/-- Maximal runs of characters satisfying `p` (the semantics of
`re.findall` with a `[class]+` pattern, and of `str.split()` for the
complement class). `cur` holds the current run reversed. -/
def runsAux (p : Char → Bool) (cur : List Char) : List Char → List (List Char)
  | [] => if cur.isEmpty then [] else [cur.reverse]
  | c :: rest =>
    if p c then runsAux p (c :: cur) rest
    else if cur.isEmpty then runsAux p [] rest
    else cur.reverse :: runsAux p [] rest

def findRuns (p : Char → Bool) (s : String) : List String :=
  (runsAux p [] s.data).map String.mk

/-- `_tokenize`: alphanumeric runs of the lowercased text, dropping tokens
of length ≤ 1 and stop words. -/
def tokenize (text : String) : List String :=
  (findRuns isAlnumAscii (pyLower text)).filter
    (fun t => 1 < t.length && !(STOP_WORDS.contains t))

/-- One step of `_term_frequencies`: bump the count of `t`, inserting it at
the end on first sight (Python dict insertion order). -/
def dict_incr : List (String × Nat) → String → List (String × Nat)
  | [], t => [(t, 1)]
  | (k, v) :: rest, t =>
    if k = t then (k, v + 1) :: rest else (k, v) :: dict_incr rest t

def term_frequencies (tokens : List String) : List (String × Nat) :=
  tokens.foldl dict_incr []

/-! ## Fingerprints (analytics.py: `_normalize_for_fingerprint`,
`_compute_exact_fingerprint`, `_compute_simhash`) -/

def normalize_for_fingerprint (tokens : List String) : String :=
  String.intercalate " " (tokens.take 5000)

def compute_exact_fingerprint (tokens : List String) : Nat :=
  fnv1a_64_str (normalize_for_fingerprint tokens)

/-- The signed accumulator `v[i]` of `_compute_simhash` after all terms:
`+w` for terms whose hash has bit `i` set, `-w` otherwise. -/
def simhash_bit_weight (tf : List (String × Nat)) (i : Nat) : Int :=
  tf.foldl
    (fun acc kv =>
      if Nat.testBit (fnv1a_64_str kv.1) i then acc + (kv.2 : Int) else acc - (kv.2 : Int))
    0

/-- `_compute_simhash`: bit `i` of the fingerprint is set iff `v[i] > 0`;
an empty frequency table gives 0. -/
def compute_simhash (tf : List (String × Nat)) : Nat :=
  if tf.isEmpty then 0
  else
    (List.range SIMHASH_BITS).foldl
      (fun fp i => if 0 < simhash_bit_weight tf i then fp ||| (1 <<< i) else fp) 0

/-! ## Banded bucket index (analytics.py: `_bucket_index`, `_is_near_duplicate`,
`_index_simhash`). The Python dict `(band_id, band_value) -> list of indices`
is modelled as a total function defaulting to the empty list. -/

/-- Candidate indices: union (as concatenation) over the four bands of the
query fingerprint. -/
def candidate_ids (bucket : Nat × Nat → List Nat) (fp : Nat) : List Nat :=
  (bands fp).foldl (fun acc kv => acc ++ bucket kv) []

/-- `_is_near_duplicate`: Hamming-check only the banded candidates. -/
def is_near_duplicate (fps : List Nat) (bucket : Nat × Nat → List Nat)
    (fp threshold : Nat) : Bool :=
  let cands := candidate_ids bucket fp
  if cands.isEmpty then false
  else cands.any (fun idx => decide (hamming_distance_64 fp (fps.getD idx 0) ≤ threshold))

/-- `_index_simhash`: append `idx` under each of the four band keys. -/
def index_simhash (bucket : Nat × Nat → List Nat) (fp idx : Nat) :
    Nat × Nat → List Nat :=
  (bands fp).foldl
    (fun b kv => fun key => if key = kv then b key ++ [idx] else b key) bucket

/-- Index every fingerprint of the list, positions starting at `start`. -/
def index_all_from (bucket : Nat × Nat → List Nat) (start : Nat) :
    List Nat → (Nat × Nat → List Nat)
  | [] => bucket
  | fp :: rest => index_all_from (index_simhash bucket fp start) (start + 1) rest

/-- The bucket index obtained by indexing the whole fingerprint list, as the
admission protocol does (each fingerprint under its position). -/
def index_all (fps : List Nat) : Nat × Nat → List Nat :=
  index_all_from (fun _ => []) 0 fps

/-! ## Bucket index lemmas -/

theorem bands_expand (fp : Nat) :
    bands fp = [(0, band_val fp 0), (1, band_val fp 1), (2, band_val fp 2), (3, band_val fp 3)] := rfl

theorem index_simhash_superset (bucket : Nat × Nat → List Nat) (fp idx : Nat)
    (k : Nat × Nat) (v : Nat) (h : v ∈ bucket k) : v ∈ index_simhash bucket fp idx k := by
  unfold index_simhash
  rw [bands_expand]
  simp only [List.foldl]
  split_ifs <;> simp_all [List.mem_append]

theorem index_simhash_apply_band (bucket : Nat × Nat → List Nat) (fp idx i : Nat)
    (hi : i < 4) :
    index_simhash bucket fp idx (i, band_val fp i) = bucket (i, band_val fp i) ++ [idx] := by
  unfold index_simhash
  rw [bands_expand]
  simp only [List.foldl]
  interval_cases i <;> simp [Prod.ext_iff]

theorem index_all_from_superset :
    ∀ (l : List Nat) (bucket : Nat × Nat → List Nat) (start : Nat) (k : Nat × Nat) (v : Nat),
      v ∈ bucket k → v ∈ index_all_from bucket start l k := by
  intro l
  induction l with
  | nil => intro bucket start k v h; exact h
  | cons fp rest ih =>
    intro bucket start k v h
    exact ih _ _ _ _ (index_simhash_superset bucket fp start k v h)

theorem index_all_from_mem :
    ∀ (l : List Nat) (bucket : Nat × Nat → List Nat) (start j i : Nat),
      j < l.length → i < 4 →
      (start + j) ∈ index_all_from bucket start l (i, band_val (l.getD j 0) i) := by
  intro l
  induction l with
  | nil => intro bucket start j i hj _; simp at hj
  | cons fp rest ih =>
    intro bucket start j i hj hi
    cases j with
    | zero =>
      simp only [List.getD, List.get?, Nat.add_zero]
      show start ∈ index_all_from (index_simhash bucket fp start) (start + 1) rest
        (i, band_val fp i)
      apply index_all_from_superset
      rw [index_simhash_apply_band bucket fp start i hi]
      simp
    | succ j' =>
      have hj' : j' < rest.length := by simpa using hj
      have := ih (index_simhash bucket fp start) (start + 1) j' i hj' hi
      have harith : start + 1 + j' = start + (j' + 1) := by omega
      rw [harith] at this
      simpa using this

theorem index_all_mem (fps : List Nat) (j i : Nat) (hj : j < fps.length) (hi : i < 4) :
    j ∈ index_all fps (i, band_val (fps.getD j 0) i) := by
  have := index_all_from_mem fps (fun _ => []) 0 j i hj hi
  simpa [index_all] using this

theorem mem_candidate_ids (bucket : Nat × Nat → List Nat) (fp : Nat) (i j : Nat)
    (hi : i < 4) (h : j ∈ bucket (i, band_val fp i)) : j ∈ candidate_ids bucket fp := by
  unfold candidate_ids
  rw [bands_expand]
  simp only [List.foldl, List.nil_append]
  interval_cases i <;> simp [List.mem_append] <;> tauto

/-- Completeness of the banded candidate lookup: an indexed fingerprint
within Hamming distance 3 of the query is always found. -/
theorem near_dup_query_complete (fps : List Nat) (q j : Nat) (hj : j < fps.length)
    (hd : hamming_distance_64 q (fps.getD j 0) ≤ 3) :
    is_near_duplicate fps (index_all fps) q NEAR_DUP_THRESHOLD = true := by
  obtain ⟨i, hi, heq⟩ := hamming_le_three_shares_band q (fps.getD j 0) hd
  have hmem : j ∈ index_all fps (i, band_val q i) := by
    rw [heq]
    exact index_all_mem fps j i hj hi
  have hc : j ∈ candidate_ids (index_all fps) q := mem_candidate_ids _ _ i j hi hmem
  unfold is_near_duplicate
  have hne : ¬(candidate_ids (index_all fps) q).isEmpty = true := by
    intro he
    rw [List.isEmpty_iff] at he
    rw [he] at hc
    simp at hc
  rw [if_neg hne, List.any_eq_true]
  refine ⟨j, hc, ?_⟩
  simp only [decide_eq_true_eq, NEAR_DUP_THRESHOLD]
  omega

/-! ## The analytics module state and `process_page` (analytics.py).

The module-scope globals become one record; Python `Counter`s become total
functions defaulting to 0; the external `urlparse(url).netloc` becomes the
`netloc_of` parameter and BeautifulSoup's text extraction the `extract`
parameter. -/

structure CrawlState where
  unique_urls : List String
  word_counter : String → Nat
  subdomain_counter : String → Nat
  longest_url : Option String
  longest_word_count : Nat
  exact_fingerprints : List Nat
  simhash_fps : List Nat
  bucket_index : Nat × Nat → List Nat
  near_duplicate_count : Nat

def initialCrawlState : CrawlState :=
  { unique_urls := []
    word_counter := fun _ => 0
    subdomain_counter := fun _ => 0
    longest_url := none
    longest_word_count := 0
    exact_fingerprints := []
    simhash_fps := []
    bucket_index := fun _ => []
    near_duplicate_count := 0 }

/-- `urldefrag`: the URL up to the first `#`. -/
def strip_fragment (url : String) : String :=
  String.mk (url.data.takeWhile (fun c => c ≠ '#'))

/-- The host computed in `process_page`:
`(parsed.netloc or "").lower().split(":")[0]`. -/
def host_of_netloc (netloc : String) : String :=
  String.mk ((pyLower netloc).data.takeWhile (fun c => c ≠ ':'))

/-- The duplicate-detection block of `process_page`, executed under `_lock`:
exact-fingerprint check, then banded near-duplicate check, then indexing. -/
def dedup_step (exact_fp simhash_fp : Nat) (s : CrawlState) : Bool × CrawlState :=
  if s.exact_fingerprints.contains exact_fp then
    (false, { s with near_duplicate_count := s.near_duplicate_count + 1 })
  else
    let s1 := { s with exact_fingerprints := exact_fp :: s.exact_fingerprints }
    if is_near_duplicate s1.simhash_fps s1.bucket_index simhash_fp NEAR_DUP_THRESHOLD then
      (false, { s1 with near_duplicate_count := s1.near_duplicate_count + 1 })
    else
      let idx := s1.simhash_fps.length
      (true, { s1 with
                simhash_fps := s1.simhash_fps ++ [simhash_fp]
                bucket_index := index_simhash s1.bucket_index simhash_fp idx })

/-- The analytics bookkeeping block of `process_page` (unique URLs,
per-subdomain counts, longest page, word counter). -/
def analytics_update (url host : String) (tokens : List String) (wc : Nat)
    (s : CrawlState) : CrawlState :=
  let s :=
    if s.unique_urls.contains url then s
    else
      let s' := { s with unique_urls := url :: s.unique_urls }
      if host = "uci.edu" || host.endsWith ".uci.edu" then
        { s' with subdomain_counter :=
            fun h => if h = host then s'.subdomain_counter h + 1
                     else s'.subdomain_counter h }
      else s'
  let s :=
    if s.longest_word_count < wc then
      { s with longest_word_count := wc, longest_url := some url }
    else s
  { s with word_counter := fun w => s.word_counter w + tokens.count w }

/-- `process_page` from analytics.py. Returns the `should_scrape` verdict
and the updated module state. -/
def process_page (extract : String → String) (netloc_of : String → String)
    (url : String) (html_content : List Nat) (s : CrawlState) : Bool × CrawlState :=
  if url = "" then (false, s)
  else
    let url1 := strip_fragment url
    let text := html_to_text extract html_content
    let tokens := tokenize text
    let wc := tokens.length
    let host := host_of_netloc (netloc_of url1)
    let tf := term_frequencies tokens
    let exact_fp := compute_exact_fingerprint tokens
    let simhash_fp := compute_simhash tf
    let r := dedup_step exact_fp simhash_fp s
    (r.1, analytics_update url1 host tokens wc r.2)

/-- The analytics bookkeeping never touches the duplicate-detection state. -/
theorem analytics_update_preserves_dedup (url host : String) (tokens : List String)
    (wc : Nat) (s : CrawlState) :
    (analytics_update url host tokens wc s).exact_fingerprints = s.exact_fingerprints ∧
    (analytics_update url host tokens wc s).simhash_fps = s.simhash_fps ∧
    (analytics_update url host tokens wc s).bucket_index = s.bucket_index ∧
    (analytics_update url host tokens wc s).near_duplicate_count = s.near_duplicate_count := by
  unfold analytics_update
  split_ifs <;>
    simp [apply_ite CrawlState.exact_fingerprints, apply_ite CrawlState.simhash_fps,
      apply_ite CrawlState.bucket_index, apply_ite CrawlState.near_duplicate_count]

theorem dedup_step_cases (exact_fp simhash_fp : Nat) (s : CrawlState) :
    ((dedup_step exact_fp simhash_fp s).1 = true ∧
      (dedup_step exact_fp simhash_fp s).2.simhash_fps = s.simhash_fps ++ [simhash_fp] ∧
      (∀ i, i < 4 →
        (dedup_step exact_fp simhash_fp s).2.bucket_index (i, band_val simhash_fp i) =
          s.bucket_index (i, band_val simhash_fp i) ++ [s.simhash_fps.length]) ∧
      (dedup_step exact_fp simhash_fp s).2.near_duplicate_count = s.near_duplicate_count) ∨
    ((dedup_step exact_fp simhash_fp s).1 = false ∧
      (dedup_step exact_fp simhash_fp s).2.near_duplicate_count =
        s.near_duplicate_count + 1 ∧
      (dedup_step exact_fp simhash_fp s).2.simhash_fps = s.simhash_fps ∧
      (dedup_step exact_fp simhash_fp s).2.bucket_index = s.bucket_index) := by
  by_cases h1 : exact_fp ∈ s.exact_fingerprints
  · right
    simp [dedup_step, h1]
  · by_cases h2 : is_near_duplicate s.simhash_fps s.bucket_index simhash_fp NEAR_DUP_THRESHOLD = true
    · right
      simp [dedup_step, h1, h2]
    · left
      refine ⟨by simp [dedup_step, h1, h2], by simp [dedup_step, h1, h2], ?_,
        by simp [dedup_step, h1, h2]⟩
      intro i hi
      have hb := index_simhash_apply_band s.bucket_index simhash_fp s.simhash_fps.length i hi
      simp [dedup_step, h1, h2, hb]

theorem dedup_step_of_contains (exact_fp simhash_fp : Nat) (s : CrawlState)
    (h : s.exact_fingerprints.contains exact_fp = true) :
    dedup_step exact_fp simhash_fp s =
      (false, { s with near_duplicate_count := s.near_duplicate_count + 1 }) := by
  unfold dedup_step
  rw [if_pos h]

theorem process_page_exact_mem (extract netloc_of : String → String) (url : String)
    (html_content : List Nat) (s : CrawlState) (h : url ≠ "") :
    (process_page extract netloc_of url html_content s).2.exact_fingerprints.contains
      (compute_exact_fingerprint (tokenize (html_to_text extract html_content))) = true := by
  simp only [process_page, if_neg h]
  rw [(analytics_update_preserves_dedup _ _ _ _ _).1]
  by_cases h1 : compute_exact_fingerprint (tokenize (html_to_text extract html_content)) ∈
      s.exact_fingerprints
  · simp [dedup_step, h1]
  · simp only [dedup_step]
    rw [if_neg (by simpa using h1)]
    split_ifs <;> simp

/-- Claim C1: for every page run through `process_page`'s admission protocol
(any non-empty URL), exactly one of two outcomes holds: either the page is
admitted (`should_scrape = true`), its SimHash is appended to the fingerprint
list and its position is inserted under all four 16-bit bands of the band
index while the near-duplicate counter is unchanged; or it is classified a
duplicate (exact or near), the counter is incremented by one, `process_page`
returns `false`, and neither the SimHash list nor the band index changes. -/
theorem process_page_admission_dichotomy (extract netloc_of : String → String)
    (url : String) (html_content : List Nat) (s : CrawlState) (hurl : url ≠ "") :
    ((process_page extract netloc_of url html_content s).1 = true ∧
      (process_page extract netloc_of url html_content s).2.simhash_fps =
        s.simhash_fps ++
          [compute_simhash (term_frequencies (tokenize (html_to_text extract html_content)))] ∧
      (∀ i, i < 4 →
        (process_page extract netloc_of url html_content s).2.bucket_index
            (i, band_val
              (compute_simhash (term_frequencies (tokenize (html_to_text extract html_content)))) i) =
          s.bucket_index
            (i, band_val
              (compute_simhash (term_frequencies (tokenize (html_to_text extract html_content)))) i) ++
            [s.simhash_fps.length]) ∧
      (process_page extract netloc_of url html_content s).2.near_duplicate_count =
        s.near_duplicate_count) ∨
    ((process_page extract netloc_of url html_content s).1 = false ∧
      (process_page extract netloc_of url html_content s).2.near_duplicate_count =
        s.near_duplicate_count + 1 ∧
      (process_page extract netloc_of url html_content s).2.simhash_fps = s.simhash_fps ∧
      (process_page extract netloc_of url html_content s).2.bucket_index = s.bucket_index) := by
  simp only [process_page, if_neg hurl]
  obtain ⟨he, hs, hb, hn⟩ := analytics_update_preserves_dedup (strip_fragment url)
    (host_of_netloc (netloc_of (strip_fragment url)))
    (tokenize (html_to_text extract html_content))
    (tokenize (html_to_text extract html_content)).length
    ((dedup_step
      (compute_exact_fingerprint (tokenize (html_to_text extract html_content)))
      (compute_simhash (term_frequencies (tokenize (html_to_text extract html_content)))) s).2)
  rcases dedup_step_cases
      (compute_exact_fingerprint (tokenize (html_to_text extract html_content)))
      (compute_simhash (term_frequencies (tokenize (html_to_text extract html_content)))) s with
    ⟨h1, h2, h3, h4⟩ | ⟨h1, h2, h3, h4⟩
  · left
    exact ⟨h1, by rw [hs, h2], fun i hi => by rw [hb, h3 i hi], by rw [hn, h4]⟩
  · right
    exact ⟨h1, by rw [hn, h2], by rw [hs, h3], by rw [hb, h4]⟩

theorem process_page_admission_dichotomy_witness :
    ("http://x.ics.uci.edu/" ≠ "") ∧
    (((process_page (fun t => t) (fun _ => "x.ics.uci.edu") "http://x.ics.uci.edu/" []
          initialCrawlState).1 = true ∧
      (process_page (fun t => t) (fun _ => "x.ics.uci.edu") "http://x.ics.uci.edu/" []
          initialCrawlState).2.simhash_fps =
        initialCrawlState.simhash_fps ++
          [compute_simhash (term_frequencies (tokenize (html_to_text (fun t => t) [])))] ∧
      (∀ i, i < 4 →
        (process_page (fun t => t) (fun _ => "x.ics.uci.edu") "http://x.ics.uci.edu/" []
            initialCrawlState).2.bucket_index
            (i, band_val
              (compute_simhash (term_frequencies (tokenize (html_to_text (fun t => t) [])))) i) =
          initialCrawlState.bucket_index
            (i, band_val
              (compute_simhash (term_frequencies (tokenize (html_to_text (fun t => t) [])))) i) ++
            [initialCrawlState.simhash_fps.length]) ∧
      (process_page (fun t => t) (fun _ => "x.ics.uci.edu") "http://x.ics.uci.edu/" []
          initialCrawlState).2.near_duplicate_count =
        initialCrawlState.near_duplicate_count) ∨
    ((process_page (fun t => t) (fun _ => "x.ics.uci.edu") "http://x.ics.uci.edu/" []
          initialCrawlState).1 = false ∧
      (process_page (fun t => t) (fun _ => "x.ics.uci.edu") "http://x.ics.uci.edu/" []
          initialCrawlState).2.near_duplicate_count =
        initialCrawlState.near_duplicate_count + 1 ∧
      (process_page (fun t => t) (fun _ => "x.ics.uci.edu") "http://x.ics.uci.edu/" []
          initialCrawlState).2.simhash_fps = initialCrawlState.simhash_fps ∧
      (process_page (fun t => t) (fun _ => "x.ics.uci.edu") "http://x.ics.uci.edu/" []
          initialCrawlState).2.bucket_index = initialCrawlState.bucket_index)) :=
  ⟨by decide, process_page_admission_dichotomy (fun t => t) (fun _ => "x.ics.uci.edu")
    "http://x.ics.uci.edu/" [] initialCrawlState (by decide)⟩

/-- Claim C3: any two fingerprints within Hamming distance 3 agree on at
least one of the four 16-bit bands (shifts 0, 16, 32, 48), and consequently
the banded candidate lookup of `_is_near_duplicate` over a fully indexed
fingerprint list never misses a pair within Hamming distance 3. -/
theorem banded_lookup_covers_hamming_le_three :
    (∀ a b : Nat, hamming_distance_64 a b ≤ 3 →
      ∃ i, i < 4 ∧ band_val a i = band_val b i) ∧
    (∀ (fps : List Nat) (q j : Nat), j < fps.length →
      hamming_distance_64 q (fps.getD j 0) ≤ 3 →
      is_near_duplicate fps (index_all fps) q NEAR_DUP_THRESHOLD = true) :=
  ⟨hamming_le_three_shares_band, near_dup_query_complete⟩

theorem banded_lookup_covers_hamming_le_three_witness :
    (hamming_distance_64 5 1 ≤ 3 ∧ ∃ i, i < 4 ∧ band_val 5 i = band_val 1 i) ∧
    (0 < ([1] : List Nat).length ∧ hamming_distance_64 5 (([1] : List Nat).getD 0 0) ≤ 3 ∧
      is_near_duplicate [1] (index_all [1]) 5 NEAR_DUP_THRESHOLD = true) :=
  ⟨⟨by decide, banded_lookup_covers_hamming_le_three.1 5 1 (by decide)⟩,
   ⟨by decide, by decide,
     banded_lookup_covers_hamming_le_three.2 [1] 5 0 (by decide) (by decide)⟩⟩

theorem process_page_eq (extract netloc_of : String → String) (url : String)
    (html_content : List Nat) (s : CrawlState) (h : url ≠ "") :
    process_page extract netloc_of url html_content s =
      ((dedup_step (compute_exact_fingerprint (tokenize (html_to_text extract html_content)))
          (compute_simhash (term_frequencies (tokenize (html_to_text extract html_content)))) s).1,
        analytics_update (strip_fragment url) (host_of_netloc (netloc_of (strip_fragment url)))
          (tokenize (html_to_text extract html_content))
          (tokenize (html_to_text extract html_content)).length
          (dedup_step (compute_exact_fingerprint (tokenize (html_to_text extract html_content)))
            (compute_simhash (term_frequencies (tokenize (html_to_text extract html_content))))
            s).2) := by
  simp only [process_page, if_neg h]

/-- Claim C7: the exact fingerprint is FNV-1a-64 of the space-joined first
5,000 retained tokens, so two pages whose retained token sequences agree on
their first 5,000 elements get equal exact fingerprints, and processing the
second right after the first classifies it an exact duplicate: verdict
`false`, near-duplicate counter incremented, and the exact-fingerprint set
left unchanged (the exact-duplicate branch, which adds nothing). -/
theorem exact_fingerprint_truncation (extract netloc_of : String → String)
    (url1 url2 : String) (c1 c2 : List Nat) (s : CrawlState)
    (h1 : url1 ≠ "") (h2 : url2 ≠ "")
    (hagree : (tokenize (html_to_text extract c1)).take 5000 =
      (tokenize (html_to_text extract c2)).take 5000) :
    compute_exact_fingerprint (tokenize (html_to_text extract c1)) =
      fnv1a_64_str (String.intercalate " " ((tokenize (html_to_text extract c1)).take 5000)) ∧
    compute_exact_fingerprint (tokenize (html_to_text extract c1)) =
      compute_exact_fingerprint (tokenize (html_to_text extract c2)) ∧
    (process_page extract netloc_of url2 c2
      (process_page extract netloc_of url1 c1 s).2).1 = false ∧
    (process_page extract netloc_of url2 c2
        (process_page extract netloc_of url1 c1 s).2).2.near_duplicate_count =
      (process_page extract netloc_of url1 c1 s).2.near_duplicate_count + 1 ∧
    (process_page extract netloc_of url2 c2
        (process_page extract netloc_of url1 c1 s).2).2.exact_fingerprints =
      (process_page extract netloc_of url1 c1 s).2.exact_fingerprints := by
  have hfp : compute_exact_fingerprint (tokenize (html_to_text extract c1)) =
      compute_exact_fingerprint (tokenize (html_to_text extract c2)) := by
    unfold compute_exact_fingerprint normalize_for_fingerprint
    rw [hagree]
  have hmem := process_page_exact_mem extract netloc_of url1 c1 s h1
  rw [hfp] at hmem
  have hded := dedup_step_of_contains
    (compute_exact_fingerprint (tokenize (html_to_text extract c2)))
    (compute_simhash (term_frequencies (tokenize (html_to_text extract c2))))
    ((process_page extract netloc_of url1 c1 s).2) hmem
  refine ⟨rfl, hfp, ?_, ?_, ?_⟩
  · rw [process_page_eq extract netloc_of url2 c2 _ h2, hded]
  · rw [process_page_eq extract netloc_of url2 c2 _ h2, hded,
      (analytics_update_preserves_dedup _ _ _ _ _).2.2.2]
  · rw [process_page_eq extract netloc_of url2 c2 _ h2, hded,
      (analytics_update_preserves_dedup _ _ _ _ _).1]

theorem exact_fingerprint_truncation_witness :
    ("http://a.ics.uci.edu/" ≠ "") ∧ ("http://b.ics.uci.edu/" ≠ "") ∧
    ((tokenize (html_to_text (fun t => t) [104])).take 5000 =
      (tokenize (html_to_text (fun t => t) [104])).take 5000) ∧
    (compute_exact_fingerprint (tokenize (html_to_text (fun t => t) [104])) =
      fnv1a_64_str
        (String.intercalate " " ((tokenize (html_to_text (fun t => t) [104])).take 5000)) ∧
    compute_exact_fingerprint (tokenize (html_to_text (fun t => t) [104])) =
      compute_exact_fingerprint (tokenize (html_to_text (fun t => t) [104])) ∧
    (process_page (fun t => t) (fun _ => "") "http://b.ics.uci.edu/" [104]
      (process_page (fun t => t) (fun _ => "") "http://a.ics.uci.edu/" [104]
        initialCrawlState).2).1 = false ∧
    (process_page (fun t => t) (fun _ => "") "http://b.ics.uci.edu/" [104]
        (process_page (fun t => t) (fun _ => "") "http://a.ics.uci.edu/" [104]
          initialCrawlState).2).2.near_duplicate_count =
      (process_page (fun t => t) (fun _ => "") "http://a.ics.uci.edu/" [104]
        initialCrawlState).2.near_duplicate_count + 1 ∧
    (process_page (fun t => t) (fun _ => "") "http://b.ics.uci.edu/" [104]
        (process_page (fun t => t) (fun _ => "") "http://a.ics.uci.edu/" [104]
          initialCrawlState).2).2.exact_fingerprints =
      (process_page (fun t => t) (fun _ => "") "http://a.ics.uci.edu/" [104]
        initialCrawlState).2.exact_fingerprints) :=
  ⟨by decide, by decide, rfl,
    exact_fingerprint_truncation (fun t => t) (fun _ => "")
      "http://a.ics.uci.edu/" "http://b.ics.uci.edu/" [104] [104] initialCrawlState
      (by decide) (by decide) rfl⟩

/-! ## String helpers for the validator and scraper -/

/-- `p` is a prefix of `l` (character lists). -/
def startsWithL : List Char → List Char → Bool
  | [], _ => true
  | _ :: _, [] => false
  | p :: ps, c :: cs => p = c && startsWithL ps cs

/-- Python's `pat in hay` substring test. -/
def hasSubstr (hay pat : String) : Bool :=
  hay.data.tails.any (fun t => startsWithL pat.data t)

/-- Python's `str.endswith`. -/
def pyEndsWith (s suffix : String) : Bool :=
  startsWithL suffix.data.reverse s.data.reverse

/-- `str.split(sep)` for a one-character separator (`cur` is the chunk in
progress, reversed). -/
def splitOnCharAux (sep : Char) (cur : List Char) : List Char → List (List Char)
  | [] => [cur.reverse]
  | c :: rest =>
    if c = sep then cur.reverse :: splitOnCharAux sep [] rest
    else splitOnCharAux sep (c :: cur) rest

def pySplitChar (sep : Char) (s : String) : List String :=
  (splitOnCharAux sep [] s.data).map String.mk

def isHexDigitChar (c : Char) : Bool :=
  ('0' ≤ c && c ≤ '9') || ('a' ≤ c && c ≤ 'f') || ('A' ≤ c && c ≤ 'F')

def hexVal (c : Char) : Nat :=
  if '0' ≤ c && c ≤ '9' then c.toNat - 48
  else if 'a' ≤ c && c ≤ 'f' then c.toNat - 87
  else c.toNat - 55

/-- Percent-decoding core of `urllib.parse.unquote`: maximal runs of valid
`%XX` pairs accumulate into a byte buffer (`pending`) that is UTF-8-decoded
with `errors="replace"` when flushed; an invalid escape stays literal. -/
def percentDecodeAux : List Char → List Nat → List Char
  | [], pending => utf8Decode true pending
  | '%' :: h1 :: h2 :: rest, pending =>
    if isHexDigitChar h1 && isHexDigitChar h2 then
      percentDecodeAux rest (pending ++ [hexVal h1 * 16 + hexVal h2])
    else
      utf8Decode true pending ++ '%' :: percentDecodeAux (h1 :: h2 :: rest) []
  | c :: rest, pending => utf8Decode true pending ++ c :: percentDecodeAux rest []

/-- `urllib.parse.unquote_plus` with the defaults `parse_qsl` uses:
`+` becomes a space, then percent-escapes are decoded. -/
def pyUnquotePlus (s : String) : String :=
  String.mk (percentDecodeAux (s.data.map (fun c => if c = '+' then ' ' else c)) [])

/-- Append `v` under key `k` (Python `parse_qs` building its dict of lists). -/
def dict_append (qs : List (String × List String)) (k v : String) :
    List (String × List String) :=
  match qs with
  | [] => [(k, [v])]
  | (k0, vs) :: rest =>
    if k0 = k then (k0, vs ++ [v]) :: rest else (k0, vs) :: dict_append rest k v

/-- `urllib.parse.parse_qs(query, keep_blank_values=True)`: split on `&`,
skip empty chunks, split each chunk at the first `=` (missing `=` gives the
empty value), unquote names and values. -/
def parse_qs (query : String) : List (String × List String) :=
  (pySplitChar '&' query).foldl
    (fun qs chunk =>
      if chunk = "" then qs
      else
        let nv := chunk.data.span (fun c => c ≠ '=')
        match nv.2 with
        | [] => dict_append qs (pyUnquotePlus (String.mk nv.1)) ""
        | _ :: vtail =>
          dict_append qs (pyUnquotePlus (String.mk nv.1)) (pyUnquotePlus (String.mk vtail)))
    []

/-- Replace the value of `k` in place, or append a new entry (Python dict
assignment: first-insertion order, last value wins). -/
def insert_or_replace {β : Type} (m : List (String × β)) (k : String) (v : β) :
    List (String × β) :=
  match m with
  | [] => [(k, v)]
  | (k0, v0) :: rest =>
    if k0 = k then (k0, v) :: rest else (k0, v0) :: insert_or_replace rest k v

/-- The `{k.lower(): k for k in qs.keys()}` map of `is_valid`. -/
def keys_map (qs : List (String × List String)) : List (String × String) :=
  qs.foldl (fun m kv => insert_or_replace m (pyLower kv.1) kv.1) []

def isAsciiWs (c : Char) : Bool :=
  c = ' ' || c = '\t' || c = '\n' || c = '\r' || c.toNat = 11 || c.toNat = 12

/-- Digit sequence with single underscores allowed between digits, as
Python's `int()` accepts ("1_0" parses, "_1", "1_", "1__0" do not). -/
def pyIntCore (acc : Nat) : List Char → Option Nat
  | [] => some acc
  | c :: rest =>
    if c.isDigit then pyIntCore (acc * 10 + (c.toNat - 48)) rest
    else if c = '_' then
      match rest with
      | [] => none
      | d :: rest2 =>
        if d.isDigit then pyIntCore (acc * 10 + (d.toNat - 48)) rest2 else none
    else none

def pyIntNat : List Char → Option Nat
  | [] => none
  | d :: rest => if d.isDigit then pyIntCore (d.toNat - 48) rest else none

/-- ASCII model of Python's `int(str)`: strip surrounding whitespace, an
optional sign, then underscore-separated digits. -/
def pyInt (s : String) : Option Int :=
  let l := ((s.data.dropWhile isAsciiWs).reverse.dropWhile isAsciiWs).reverse
  match l with
  | '+' :: rest => (pyIntNat rest).map (fun n => (n : Int))
  | '-' :: rest => (pyIntNat rest).map (fun n => -(n : Int))
  | rest => (pyIntNat rest).map (fun n => (n : Int))

/-! ## URL admission filter (validator.py) -/

def ALLOWED_DOMAINS : List String :=
  ["ics.uci.edu", "cs.uci.edu", "informatics.uci.edu", "stat.uci.edu"]

def BLOCKED_HOSTS_EXACT : List String :=
  ["gitlab.ics.uci.edu", "svn.ics.uci.edu", "wiki.ics.uci.edu", "swiki.ics.uci.edu",
   "mailman.ics.uci.edu", "helpdesk.ics.uci.edu", "password.ics.uci.edu",
   "netreg.ics.uci.edu", "observium.ics.uci.edu", "pgadmin.ics.uci.edu",
   "speedtest.ics.uci.edu", "ngs.ics.uci.edu"]

def BLOCKED_HOST_HINTS : List String :=
  ["gitlab", "git.", "svn", "wiki", "swiki",
   "mailman", "pipermail",
   "helpdesk", "support",
   "password", "netreg",
   "observium", "pgadmin", "speedtest",
   "intranet", "staging", "archive-beta"]

def BLOCKED_EXTENSIONS : List String :=
  [".css", ".js", ".mjs", ".map", ".wasm",
   ".bmp", ".gif", ".jpg", ".jpeg", ".png", ".tiff", ".tif", ".ico", ".svg", ".webp",
   ".psd", ".ai", ".eps", ".heic", ".heif", ".avif", ".jp2",
   ".mp2", ".mp3", ".m4a", ".aac", ".flac", ".wav", ".wma", ".aiff", ".au",
   ".mp4", ".m4v", ".mov", ".avi", ".mkv", ".flv", ".wmv", ".webm", ".mpeg", ".mpg",
   ".ogv", ".ogg", ".m3u8", ".ts", ".srt", ".vtt",
   ".pdf", ".ps", ".tex", ".djvu",
   ".ppt", ".pptx", ".pptm", ".pps", ".ppsx", ".ppsm", ".pot", ".potx", ".potm",
   ".doc", ".docx", ".docm", ".xls", ".xlsx", ".xlsm", ".odt", ".ods", ".odp",
   ".rtf", ".txt", ".epub", ".mobi", ".azw", ".azw3",
   ".woff", ".woff2", ".ttf", ".eot", ".otf",
   ".xml", ".json", ".jsonl", ".ndjson", ".yaml", ".yml", ".toml",
   ".sql", ".db", ".sqlite", ".sqlite3", ".csv", ".tsv",
   ".log", ".dat", ".bak", ".tmp", ".swp", ".old", ".dmp", ".dump",
   ".zip", ".rar", ".7z", ".tar", ".tgz", ".tar.gz", ".tar.bz2", ".tar.xz", ".tar.zst",
   ".gz", ".bz2", ".xz", ".zst", ".lz4", ".iso", ".img",
   ".exe", ".msi", ".bin", ".dll", ".so", ".dylib", ".deb", ".rpm", ".apk", ".dmg", ".pkg", ".cab",
   ".jar", ".war", ".ear", ".class",
   ".c", ".cc", ".cpp", ".cxx", ".h", ".hpp",
   ".java", ".py", ".ipynb",
   ".sh", ".bash", ".zsh", ".ps1", ".bat", ".cmd",
   ".go", ".rs", ".rb", ".php", ".pl", ".swift", ".kt",
   ".m", ".mat", ".r",
   ".ini", ".cfg", ".conf", ".cnf", ".env", ".pem", ".crt", ".cer", ".key",
   ".ics", ".rss", ".atom", ".arff", ".diff", ".patch"]

def HARD_BLOCK_QUERY_KEYS : List String :=
  ["day", "month", "year", "date", "time",
   "tribe_bar_date", "tribe_event_display", "eventdate", "start_date", "end_date", "ical",
   "print", "printable", "download", "attachment", "preview",
   "fullscreen", "mobile", "view_mode",
   "diff", "oldid", "action", "mode",
   "replytocom", "share", "shared", "share_id",
   "utm_source", "utm_medium", "utm_campaign", "utm_term", "utm_content",
   "gclid", "dclid", "gbraid", "wbraid", "fbclid", "msclkid", "mc_cid", "mc_eid", "igshid", "yclid",
   "ref", "ref_", "referrer", "source", "src", "campaign", "adid",
   "session", "sid", "phpsessid", "jsessionid", "state",
   "_", "_t", "cb", "cachebust", "nocache", "timestamp", "ts", "rnd", "random",
   "v", "ver", "version", "hash",
   "token", "access_token", "auth", "oauth", "apikey", "key", "signature", "sig", "expires",
   "samlrequest", "samlresponse",
   "do", "rev", "image", "tab_files", "tab_details",
   "sort", "order"]

def PAGINATION_KEYS : List String :=
  ["page", "p", "pg", "paged", "start", "offset", "limit", "per_page"]

def MAX_PAGE_NUMBER : Int := 20

def MAX_START_OFFSET : Int := 500

def MAX_LIMIT : Int := 100

def TRAP_PATH_HINTS : List String :=
  ["wp-json", "wp-admin", "wp-includes", "wp-content",
   "feed", "rss", "atom", "cgi-bin",
   "login", "logout", "signin", "signout",
   "admin", "api", "graphql",
   "search", "tag", "tags", "category", "categories",
   "archive", "archives", "author", "authors",
   "uploads", "assets", "static", "media",
   "tree", "blob", "raw", "blame",
   "commit", "commits", "compare", "diff", "patch",
   "network", "graph", "history",
   "merge_requests", "issues",
   "mailman", "pipermail", "javadoc", "doxygen", "epydoc", "apidocs",
   "ganglia", "nagios", "mrtg"]

/-- The local `combinatorial` set inside `is_valid`. -/
def COMBINATORIAL_KEYS : List String :=
  ["sort", "order", "filter", "facet", "action", "view", "layout"]

def is_allowed_domain (host : String) : Bool :=
  ALLOWED_DOMAINS.any (fun domain => host = domain || pyEndsWith host ("." ++ domain))

def pagination_within_limits (qs : List (String × List String))
    (keys : List (String × String)) : Bool :=
  let has_page := ["page", "p", "pg", "paged"].any (fun k => (keys.lookup k).isSome)
  let has_offset := ["start", "offset"].any (fun k => (keys.lookup k).isSome)
  if has_page && has_offset then false
  else
    keys.all (fun kv =>
      if !(PAGINATION_KEYS.contains kv.1) then true
      else
        match qs.lookup kv.2 with
        | none => true
        | some [] => true
        | some (v :: _) =>
          match pyInt v with
          | none => false
          | some n =>
            if kv.1 = "page" || kv.1 = "p" || kv.1 = "pg" || kv.1 = "paged" then
              decide (n ≤ MAX_PAGE_NUMBER)
            else if kv.1 = "start" || kv.1 = "offset" then
              decide (n ≤ MAX_START_OFFSET)
            else if kv.1 = "limit" || kv.1 = "per_page" then
              decide (n ≤ MAX_LIMIT)
            else true)

/-- Three equal consecutive segments (`segments[i] == segments[i+1] == segments[i+2]`). -/
def hasTripleRepeat : List String → Bool
  | a :: b :: c :: rest => (a = b && b = c) || hasTripleRepeat (b :: c :: rest)
  | _ => false

def has_repeating_path_segments (path : String) : Bool :=
  let segments := (pySplitChar '/' path).filter (fun s => s ≠ "")
  if segments.length < 3 then false
  else hasTripleRepeat segments || segments.any (fun s => 6 ≤ segments.count s)

def path_depth (path : String) : Nat :=
  ((pySplitChar '/' path).filter (fun s => s ≠ "")).length

/-- One window of the date-archive regex: slash, four digits, dash or
slash, two digits, slash. -/
def date_archive_at : List Char → Bool
  | '/' :: a :: b :: c :: d :: s :: e :: f :: '/' :: _ =>
    a.isDigit && b.isDigit && c.isDigit && d.isDigit && (s = '-' || s = '/') &&
      e.isDigit && f.isDigit
  | _ => false

/-- The date-archive `re.search` of `is_valid` as a sliding-window match. -/
def date_archive_pattern (path : String) : Bool :=
  path.data.tails.any (fun t => date_archive_at t)

/-- A URL after `urldefrag`, as decomposed by `urllib.parse.urlparse`
(the stdlib parser is external to the repository): lowercase-insensitive
fields are kept as parsed, and the original string is `unparse`. -/
structure PUrl where
  scheme : String
  netloc : String
  path : String
  query : String

/-- The URL string the components came from (`is_valid` measures its length). -/
def unparse (u : PUrl) : String :=
  u.scheme ++ "://" ++ u.netloc ++ u.path ++ (if u.query = "" then "" else "?" ++ u.query)

/-- `is_valid` from validator.py over the parsed URL. The early-return-False
chain of the source becomes a conjunction, in source order. -/
def is_valid (u : PUrl) : Bool :=
  let host := host_of_netloc u.netloc
  let path := pyLower u.path
  (u.scheme = "http" || u.scheme = "https") &&
  is_allowed_domain host &&
  !(BLOCKED_HOSTS_EXACT.contains host) &&
  !(BLOCKED_HOST_HINTS.any (fun hint => hasSubstr host hint)) &&
  !(BLOCKED_EXTENSIONS.any (fun ext => pyEndsWith path ext)) &&
  !(300 < (unparse u).length) &&
  !(has_repeating_path_segments path) &&
  !(10 < path_depth path) &&
  !(date_archive_pattern path) &&
  !(TRAP_PATH_HINTS.any (fun hint =>
      hasSubstr path ("/" ++ hint ++ "/") || pyEndsWith path ("/" ++ hint))) &&
  (if u.query = "" then true
   else
     let qs := parse_qs u.query
     let keys := keys_map qs
     !(keys.any (fun kv => kv.1.data.contains '[' || kv.1.data.contains ']')) &&
     !(4 < keys.length) &&
     !(keys.any (fun kv => HARD_BLOCK_QUERY_KEYS.contains kv.1)) &&
     pagination_within_limits qs keys &&
     !(2 ≤ (keys.filter (fun kv => COMBINATORIAL_KEYS.contains kv.1)).length))

/-- Claim C9: a URL whose host (lowercased, port stripped) is in the exact
blocked-host set or contains a blocked-host hint substring is rejected by
`is_valid`, whatever the rest of the URL — in particular even when the host
equals or is a subdomain of an allowed domain. -/
theorem blocked_host_layer_rejects (u : PUrl)
    (h : host_of_netloc u.netloc ∈ BLOCKED_HOSTS_EXACT ∨
      ∃ hint ∈ BLOCKED_HOST_HINTS, hasSubstr (host_of_netloc u.netloc) hint = true) :
    is_valid u = false := by
  rcases h with h | ⟨hint, hh, hs⟩
  · simp [is_valid, h]
  · have ha : BLOCKED_HOST_HINTS.any (fun hint => hasSubstr (host_of_netloc u.netloc) hint)
        = true := List.any_eq_true.mpr ⟨hint, hh, hs⟩
    simp [is_valid, ha]

theorem blocked_host_layer_rejects_witness :
    (host_of_netloc "gitlab.ics.uci.edu" ∈ BLOCKED_HOSTS_EXACT ∨
      ∃ hint ∈ BLOCKED_HOST_HINTS,
        hasSubstr (host_of_netloc "gitlab.ics.uci.edu") hint = true) ∧
    is_valid ⟨"http", "gitlab.ics.uci.edu", "/", ""⟩ = false ∧
    (host_of_netloc "support.ics.uci.edu" ∈ BLOCKED_HOSTS_EXACT ∨
      ∃ hint ∈ BLOCKED_HOST_HINTS,
        hasSubstr (host_of_netloc "support.ics.uci.edu") hint = true) ∧
    is_valid ⟨"https", "support.ics.uci.edu", "/help", ""⟩ = false :=
  ⟨by decide, blocked_host_layer_rejects ⟨"http", "gitlab.ics.uci.edu", "/", ""⟩ (by decide),
   by decide, blocked_host_layer_rejects ⟨"https", "support.ics.uci.edu", "/help", ""⟩ (by decide)⟩

theorem is_valid_false_of_pagination (u : PUrl) (hq : u.query ≠ "")
    (hp : pagination_within_limits (parse_qs u.query) (keys_map (parse_qs u.query)) = false) :
    is_valid u = false := by
  simp [is_valid, hq, hp]

theorem pagination_false_of_bad (qs : List (String × List String))
    (keys : List (String × String)) (kl ko v : String) (vs : List String)
    (hk : (kl, ko) ∈ keys) (hv : qs.lookup ko = some (v :: vs))
    (hbad :
      ((kl = "page" ∨ kl = "p" ∨ kl = "pg" ∨ kl = "paged") ∧
        (pyInt v = none ∨ ∃ n, pyInt v = some n ∧ MAX_PAGE_NUMBER < n)) ∨
      ((kl = "start" ∨ kl = "offset") ∧
        (pyInt v = none ∨ ∃ n, pyInt v = some n ∧ MAX_START_OFFSET < n))) :
    pagination_within_limits qs keys = false := by
  simp only [pagination_within_limits]
  split_ifs with hpo
  · rfl
  · rw [List.all_eq_false]
    refine ⟨(kl, ko), hk, ?_⟩
    rcases hbad with ⟨hkl, hval⟩ | ⟨hkl, hval⟩
    · rcases hval with hnone | ⟨n, hn, hgt⟩
      · rcases hkl with h | h | h | h <;> subst h <;>
          simp [PAGINATION_KEYS, hv, hnone]
      · rcases hkl with h | h | h | h <;> subst h <;>
          simp only [MAX_PAGE_NUMBER] at hgt <;>
            simp [PAGINATION_KEYS, MAX_PAGE_NUMBER, hv, hn] <;> omega
    · rcases hval with hnone | ⟨n, hn, hgt⟩
      · rcases hkl with h | h <;> subst h <;>
          simp [PAGINATION_KEYS, hv, hnone]
      · rcases hkl with h | h <;> subst h <;>
          simp only [MAX_START_OFFSET] at hgt <;>
            simp [PAGINATION_KEYS, MAX_START_OFFSET, hv, hn] <;> omega

/-- Claim C4, amended: for each distinct lowercased parameter name, the
filter checks only the FIRST value of the (case-insensitively last)
parameter with that name; if a checked pagination value (`page`, `p`, `pg`,
`paged`) fails to parse as an integer or exceeds 20, or a checked `start` or
`offset` value fails to parse or exceeds 500, the URL is rejected. In
particular `?page=20` is accepted and `?page=21` rejected. (The claim's
"any parameter ... has a value" reading fails: later repeated values are
never checked, see the counterexample.) -/
theorem pagination_bounds_checked_value :
    (∀ (u : PUrl) (kl ko v : String) (vs : List String),
      u.query ≠ "" →
      (kl, ko) ∈ keys_map (parse_qs u.query) →
      (parse_qs u.query).lookup ko = some (v :: vs) →
      (((kl = "page" ∨ kl = "p" ∨ kl = "pg" ∨ kl = "paged") ∧
          (pyInt v = none ∨ ∃ n, pyInt v = some n ∧ MAX_PAGE_NUMBER < n)) ∨
       ((kl = "start" ∨ kl = "offset") ∧
          (pyInt v = none ∨ ∃ n, pyInt v = some n ∧ MAX_START_OFFSET < n))) →
      is_valid u = false) ∧
    is_valid ⟨"http", "ics.uci.edu", "/x", "page=20"⟩ = true ∧
    is_valid ⟨"http", "ics.uci.edu", "/x", "page=21"⟩ = false := by
  refine ⟨?_, by decide, by decide⟩
  intro u kl ko v vs hq hk hv hbad
  exact is_valid_false_of_pagination u hq
    (pagination_false_of_bad _ _ kl ko v vs hk hv hbad)

theorem pagination_bounds_checked_value_witness :
    (("page=999" : String) ≠ "" ∧
      ("page", "page") ∈ keys_map (parse_qs "page=999") ∧
      (parse_qs "page=999").lookup "page" = some ["999"] ∧
      pyInt "999" = some 999 ∧ MAX_PAGE_NUMBER < 999) ∧
    is_valid ⟨"http", "ics.uci.edu", "/x", "page=999"⟩ = false :=
  ⟨⟨by decide, by decide, by decide, by decide, by decide⟩,
    pagination_bounds_checked_value.1 ⟨"http", "ics.uci.edu", "/x", "page=999"⟩
      "page" "page" "999" [] (by decide) (by decide) (by decide)
      (Or.inl ⟨Or.inl rfl, Or.inr ⟨999, by decide, by decide⟩⟩)⟩

/-- Claim C4 as frozen is false on the code: the URL
`http://ics.uci.edu/a?page=5&page=999` has a parameter named `page` with a
value `999` that parses to an integer greater than 20, yet `is_valid`
accepts it, because `pagination_within_limits` checks only `values[0]`. -/
theorem pagination_any_value_counterexample :
    is_valid ⟨"http", "ics.uci.edu", "/a", "page=5&page=999"⟩ = true ∧
    (parse_qs "page=5&page=999").lookup "page" = some ["5", "999"] ∧
    pyInt "999" = some 999 ∧ MAX_PAGE_NUMBER < 999 :=
  ⟨by decide, by decide, by decide, by decide⟩

/-! ## Token-pipeline lemmas (claim C8) -/

theorem runsAux_chars (p : Char → Bool) :
    ∀ (l cur : List Char), (∀ c ∈ cur, p c = true) →
      ∀ r ∈ runsAux p cur l, ∀ c ∈ r, p c = true := by
  intro l
  induction l with
  | nil =>
    intro cur hcur r hr c hc
    simp only [runsAux] at hr
    split_ifs at hr with he
    · simp at hr
    · simp at hr
      subst hr
      exact hcur c (by simpa using hc)
  | cons a rest ih =>
    intro cur hcur r hr c hc
    simp only [runsAux] at hr
    split_ifs at hr with hp he
    · exact ih (a :: cur) (by
        intro x hx
        rcases List.mem_cons.mp hx with hx | hx
        · subst hx; exact hp
        · exact hcur x hx) r hr c hc
    · exact ih [] (by simp) r hr c hc
    · rcases List.mem_cons.mp hr with hr | hr
      · subst hr
        exact hcur c (by simpa using hc)
      · exact ih [] (by simp) r hr c hc

theorem tokenize_token_shape (text : String) :
    ∀ t ∈ tokenize text, 2 ≤ t.length ∧ STOP_WORDS.contains t = false ∧
      ∀ c ∈ t.data, isAlnumAscii c = true := by
  intro t ht
  unfold tokenize at ht
  obtain ⟨hmem, hpred⟩ := List.mem_filter.mp ht
  simp only [Bool.and_eq_true, Bool.not_eq_true', decide_eq_true_eq] at hpred
  refine ⟨by omega, hpred.2, ?_⟩
  unfold findRuns at hmem
  obtain ⟨r, hr, hrt⟩ := List.mem_map.mp hmem
  intro c hc
  subst hrt
  exact runsAux_chars isAlnumAscii (pyLower text).data [] (by simp) r hr c hc

theorem analytics_update_longest (url host : String) (tokens : List String)
    (wc : Nat) (s : CrawlState) :
    (analytics_update url host tokens wc s).longest_word_count =
      max s.longest_word_count wc := by
  simp only [analytics_update]
  split_ifs <;>
    first
      | (rename_i h; have h2 : s.longest_word_count < wc := h;
          show wc = max s.longest_word_count wc; omega)
      | (rename_i h; have h2 : ¬ s.longest_word_count < wc := h;
          show s.longest_word_count = max s.longest_word_count wc; omega)

theorem dedup_step_preserves_longest (exact_fp simhash_fp : Nat) (s : CrawlState) :
    (dedup_step exact_fp simhash_fp s).2.longest_word_count = s.longest_word_count := by
  simp only [dedup_step]
  split_ifs <;> rfl

/-- Claim C8, amended: the pipeline decodes the HTML bytes as UTF-8 with
malformed bytes DROPPED (`errors="ignore"`, not replaced), hands the string
to the external extractor, lowercases it and takes the maximal alphanumeric
runs, keeping only tokens of length ≥ 2 outside the stop-word set; the
page's word count — the value `process_page` feeds the longest-page
tracker — is the length of the retained token sequence. -/
theorem text_token_pipeline :
    (∀ rest, utf8Decode false (255 :: rest) = utf8Decode false rest) ∧
    (∀ (extract : String → String) (bytes : List Nat), bytes ≠ [] →
      html_to_text extract bytes = extract (utf8DecodeStr false bytes)) ∧
    (∀ (text : String) (t : String), t ∈ tokenize text →
      2 ≤ t.length ∧ STOP_WORDS.contains t = false ∧
        ∀ c ∈ t.data, isAlnumAscii c = true) ∧
    (∀ (extract netloc_of : String → String) (url : String) (content : List Nat)
        (s : CrawlState), url ≠ "" →
      (process_page extract netloc_of url content s).2.longest_word_count =
        max s.longest_word_count (tokenize (html_to_text extract content)).length) := by
  refine ⟨?_, ?_, ?_, ?_⟩
  · intro rest
    show utf8DecodeAux false (255 :: rest).length (255 :: rest) = utf8Decode false rest
    simp [utf8DecodeAux, utf8DecodeStep, errorChars, utf8Decode]
  · intro extract bytes hb
    unfold html_to_text
    rw [if_neg (fun h => hb (List.isEmpty_iff.mp h))]
  · exact tokenize_token_shape
  · intro extract netloc_of url content s hurl
    rw [process_page_eq extract netloc_of url content s hurl]
    rw [analytics_update_longest, dedup_step_preserves_longest]

theorem text_token_pipeline_witness :
    (([104, 105] : List Nat) ≠ [] ∧
      html_to_text (fun t => t) [104, 105] = (fun t => t) (utf8DecodeStr false [104, 105])) ∧
    (2 ≤ ("hi" : String).length ∧ STOP_WORDS.contains "hi" = false ∧
      ∀ c ∈ ("hi" : String).data, isAlnumAscii c = true) ∧
    (("http://u" : String) ≠ "" ∧
      (process_page (fun t => t) (fun _ => "") "http://u" [104, 105]
          initialCrawlState).2.longest_word_count =
        max initialCrawlState.longest_word_count
          (tokenize (html_to_text (fun t => t) [104, 105])).length) :=
  ⟨⟨by decide, text_token_pipeline.2.1 (fun t => t) [104, 105] (by decide)⟩,
   text_token_pipeline.2.2.1 "Hi there? Hi!" "hi" (by decide),
   ⟨by decide, text_token_pipeline.2.2.2 (fun t => t) (fun _ => "") "http://u" [104, 105]
      initialCrawlState (by decide)⟩⟩

/-- Claim C8 is false as stated on the decoding step: `_html_to_text`
decodes with `errors="ignore"`, so a malformed byte is dropped, not replaced.
On the bytes `[0xFF, 'h', 'i']` the pipeline text is `"hi"`, while replacing
malformed bytes would give `"�hi"`. -/
theorem decode_ignore_counterexample :
    html_to_text (fun t => t) [255, 104, 105] = "hi" ∧
    utf8DecodeStr false [255, 104, 105] = "hi" ∧
    utf8DecodeStr true [255, 104, 105] = "�hi" ∧
    utf8DecodeStr false [255, 104, 105] ≠ utf8DecodeStr true [255, 104, 105] :=
  ⟨by decide, by decide, by decide, by decide⟩

/-! ## Worker loop body (crawler/worker.py, `Worker.run`)

One iteration after a URL was dequeued and downloaded. The fallible calls
are passed as `Except` values: `process_result` is what
`analytics.process_page` does (`Except.error` = it raised), `scrape_result`
is what `scraper.scraper` plus the `frontier.add_url` loop does. Only the
analytics call sits in a `try`; scraping and enqueueing do not. -/

structure WorkerStepResult where
  marked_complete : Bool
  propagated : Bool
  added_urls : List String
  logged_error : Bool

def worker_step (fetch_ok : Bool) (process_result : Except String Bool)
    (scrape_result : Except String (List String)) : WorkerStepResult :=
  let sr : Bool × Bool :=
    if fetch_ok then
      match process_result with
      | Except.ok b => (b, false)
      | Except.error _ => (true, true)
    else (true, false)
  if sr.1 then
    match scrape_result with
    | Except.ok urls =>
      { marked_complete := true, propagated := false, added_urls := urls,
        logged_error := sr.2 }
    | Except.error _ =>
      { marked_complete := false, propagated := true, added_urls := [],
        logged_error := sr.2 }
  else
    { marked_complete := true, propagated := false, added_urls := [],
      logged_error := sr.2 }

/-- Claim C2, amended: an exception raised inside `process_page`
(tokenization, duplicate detection, analytics update) is caught and logged,
`should_scrape` keeps its default `True`, and the worker still reaches
`mark_url_complete`; but an exception raised during link extraction or
enqueueing (step 6) is NOT caught: it propagates out of the loop body and
`mark_url_complete` is never called for that URL. -/
theorem worker_exception_scope :
    (∀ (e : String) (urls : List String),
      worker_step true (Except.error e) (Except.ok urls) =
        { marked_complete := true, propagated := false, added_urls := urls,
          logged_error := true }) ∧
    (∀ (e : String) (b : Bool),
      worker_step true (Except.ok b) (Except.error e) =
        if b then
          { marked_complete := false, propagated := true, added_urls := [],
            logged_error := false }
        else
          { marked_complete := true, propagated := false, added_urls := [],
            logged_error := false }) ∧
    (∀ (e e' : String),
      worker_step true (Except.error e) (Except.error e') =
        { marked_complete := false, propagated := true, added_urls := [],
          logged_error := true }) := by
  refine ⟨fun e urls => rfl, fun e b => ?_, fun e e' => rfl⟩
  cases b <;> rfl

/-- Claim C2 is false as stated: at a dequeued URL whose page scrapes with
an exception in step 6 (link extraction / enqueueing) — fetch fine,
analytics fine, `should_scrape = true` — the worker does NOT reach
`mark_url_complete` and the exception propagates. -/
theorem worker_exception_counterexample :
    (worker_step true (Except.ok true) (Except.error "boom")).marked_complete = false ∧
    (worker_step true (Except.ok true) (Except.error "boom")).propagated = true :=
  ⟨rfl, rfl⟩

theorem lookup_insert_or_replace {β : Type} (m : List (String × β)) (k : String) (v : β) :
    (insert_or_replace m k v).lookup k = some v := by
  induction m with
  | nil => simp [insert_or_replace, List.lookup]
  | cons kv rest ih =>
    obtain ⟨k0, v0⟩ := kv
    unfold insert_or_replace
    by_cases h : k0 = k
    · subst h
      simp [List.lookup]
    · have hb : (k == k0) = false := beq_eq_false_iff_ne.mpr (fun he => h he.symm)
      rw [if_neg h]
      simp only [List.lookup, hb]
      exact ih

/-! ## Frontier (crawler/frontier.py)

The durable shelve store becomes an association list from URL hash to
`(url, completed)`; the pending queue is a list. The external
`utils.normalize` and `utils.get_urlhash` are passed in as functions (the
claims hold for any choice). -/

structure FrontierState where
  store : List (String × (String × Bool))
  to_be_downloaded : List String

/-- `Frontier.add_url`: normalize, hash, and insert-and-enqueue only when
the hash is absent from the store. -/
def add_url (normalize get_urlhash : String → String) (s : FrontierState)
    (url : String) : FrontierState :=
  let url1 := normalize url
  let urlhash := get_urlhash url1
  if (s.store.lookup urlhash).isSome then s
  else
    { store := s.store ++ [(urlhash, (url1, false))],
      to_be_downloaded := s.to_be_downloaded ++ [url1] }

theorem lookup_isSome_append_right {β : Type} (l1 l2 : List (String × β)) (k : String)
    (h : (l2.lookup k).isSome = true) : ((l1 ++ l2).lookup k).isSome = true := by
  induction l1 with
  | nil => simpa using h
  | cons kv rest ih =>
    obtain ⟨k0, v0⟩ := kv
    by_cases hk : k = k0
    · subst hk
      simp [List.lookup]
    · have hb : (k == k0) = false := beq_eq_false_iff_ne.mpr hk
      simp only [List.cons_append, List.lookup, hb]
      exact ih

/-- Claim C5: `add_url` is idempotent on the canonical form. A first call
with the hash absent inserts `(canonical url, false)` and appends the
canonical URL to the pending queue; a call with the hash present changes
nothing; hence a repeated call for the same canonical URL (any `u'` with
the same normalization) leaves store and queue exactly as one call. -/
theorem add_url_idempotent :
    (∀ (normalize get_urlhash : String → String) (s : FrontierState) (u : String),
      (s.store.lookup (get_urlhash (normalize u))).isSome = false →
      add_url normalize get_urlhash s u =
        { store := s.store ++ [(get_urlhash (normalize u), (normalize u, false))],
          to_be_downloaded := s.to_be_downloaded ++ [normalize u] }) ∧
    (∀ (normalize get_urlhash : String → String) (s : FrontierState) (u : String),
      (s.store.lookup (get_urlhash (normalize u))).isSome = true →
      add_url normalize get_urlhash s u = s) ∧
    (∀ (normalize get_urlhash : String → String) (s : FrontierState) (u u' : String),
      normalize u' = normalize u →
      add_url normalize get_urlhash (add_url normalize get_urlhash s u) u' =
        add_url normalize get_urlhash s u) := by
  refine ⟨?_, ?_, ?_⟩
  · intro normalize get_urlhash s u h
    unfold add_url
    rw [if_neg (by simp [h])]
  · intro normalize get_urlhash s u h
    unfold add_url
    rw [if_pos h]
  · intro normalize get_urlhash s u u' hn
    by_cases h : (s.store.lookup (get_urlhash (normalize u))).isSome = true
    · have h1 : add_url normalize get_urlhash s u = s := by
        unfold add_url
        rw [if_pos h]
      rw [h1]
      unfold add_url
      rw [hn, if_pos h]
    · have h1 : add_url normalize get_urlhash s u =
          { store := s.store ++ [(get_urlhash (normalize u), (normalize u, false))],
            to_be_downloaded := s.to_be_downloaded ++ [normalize u] } := by
        unfold add_url
        rw [if_neg h]
      rw [h1]
      unfold add_url
      rw [hn, if_pos (lookup_isSome_append_right s.store _ _ (by simp [List.lookup]))]

theorem add_url_idempotent_witness :
    ((FrontierState.mk [] []).store.lookup ((fun x => x) ((fun x => x) "http://u"))).isSome
        = false ∧
    add_url (fun x => x) (fun x => x) (FrontierState.mk [] []) "http://u" =
      { store := [(((fun x : String => x) ((fun x : String => x) "http://u")),
          (((fun x : String => x) "http://u"), false))],
        to_be_downloaded := [((fun x : String => x) "http://u")] } ∧
    add_url (fun x => x) (fun x => x)
        (add_url (fun x => x) (fun x => x) (FrontierState.mk [] []) "http://u") "http://u" =
      add_url (fun x => x) (fun x => x) (FrontierState.mk [] []) "http://u" :=
  ⟨rfl,
    by
      have := add_url_idempotent.1 (fun x => x) (fun x => x) (FrontierState.mk [] []) "http://u" rfl
      simpa using this,
    add_url_idempotent.2.2 (fun x => x) (fun x => x) (FrontierState.mk [] []) "http://u" "http://u" rfl⟩

/-! ## Per-host politeness scheduling (crawler/frontier.py,
`Frontier.wait_for_politeness`)

Wall-clock instants and delays are modelled as rationals; `time.monotonic()`
becomes the `now` argument, the `_domain_next_allowed` dict an association
list. `getattr(config, "time_delay", 0.5)` becomes `Option ℚ` with default
1/2; `if not delay or delay <= 0: delay = 0.5` is the non-positive check. -/

def wait_for_politeness (time_delay : Option ℚ) (domain_next_allowed : List (String × ℚ))
    (now : ℚ) (host : String) : ℚ × List (String × ℚ) :=
  let delay0 := time_delay.getD (1 / 2)
  let delay := if delay0 ≤ 0 then 1 / 2 else delay0
  let next_allowed := (domain_next_allowed.lookup host).getD 0
  let wait := if now < next_allowed then next_allowed - now else 0
  let base := if now < next_allowed then next_allowed else now
  (wait, insert_or_replace domain_next_allowed host (base + delay))

/-- Claim C6: each call stores `max(previous next-allowed, now)` plus the
effective delay (0.5 s when the configured delay is unset or non-positive),
so the stored next-allowed timestamp never decreases (the previous value
defaults to 0 for a host not yet seen). -/
theorem politeness_next_allowed_monotone (time_delay : Option ℚ)
    (table : List (String × ℚ)) (now : ℚ) (host : String) :
    ((wait_for_politeness time_delay table now host).2.lookup host =
      some (max ((table.lookup host).getD 0) now +
        (if time_delay.getD (1 / 2) ≤ 0 then (1 / 2 : ℚ) else time_delay.getD (1 / 2)))) ∧
    (0 < (if time_delay.getD (1 / 2) ≤ 0 then (1 / 2 : ℚ) else time_delay.getD (1 / 2))) ∧
    ((table.lookup host).getD 0 ≤
      max ((table.lookup host).getD 0) now +
        (if time_delay.getD (1 / 2) ≤ 0 then (1 / 2 : ℚ) else time_delay.getD (1 / 2))) ∧
    (time_delay = none →
      (if time_delay.getD (1 / 2) ≤ 0 then (1 / 2 : ℚ) else time_delay.getD (1 / 2)) = 1 / 2) ∧
    (∀ d : ℚ, time_delay = some d → d ≤ 0 →
      (if time_delay.getD (1 / 2) ≤ 0 then (1 / 2 : ℚ) else time_delay.getD (1 / 2)) = 1 / 2) := by
  have heff : 0 < (if time_delay.getD (1 / 2) ≤ 0 then (1 / 2 : ℚ) else time_delay.getD (1 / 2)) := by
    split_ifs with h
    · norm_num
    · linarith
  refine ⟨?_, heff, ?_, ?_, ?_⟩
  · unfold wait_for_politeness
    rw [lookup_insert_or_replace]
    congr 2
    rcases lt_or_le now ((table.lookup host).getD 0) with h | h
    · rw [if_pos h, max_eq_left (le_of_lt h)]
    · rw [if_neg (not_lt.mpr h), max_eq_right h]
  · have := le_max_left ((table.lookup host).getD 0) now
    linarith
  · intro h
    subst h
    simp
  · intro d hd hle
    subst hd
    simp only [Option.getD_some]
    rw [if_pos hle]

theorem politeness_next_allowed_monotone_witness :
    ((wait_for_politeness none [] 0 "h").2.lookup "h" =
      some (max ((([] : List (String × ℚ)).lookup "h").getD 0) 0 +
        (if (none : Option ℚ).getD (1 / 2) ≤ 0 then (1 / 2 : ℚ)
         else (none : Option ℚ).getD (1 / 2)))) ∧
    ((none : Option ℚ) = none ∧
      (if (none : Option ℚ).getD (1 / 2) ≤ 0 then (1 / 2 : ℚ)
       else (none : Option ℚ).getD (1 / 2)) = 1 / 2) :=
  ⟨(politeness_next_allowed_monotone none [] 0 "h").1,
   rfl, (politeness_next_allowed_monotone none [] 0 "h").2.2.2.1 rfl⟩

/-! ## Link extraction guards (scraper.py, `extract_next_links`)

BeautifulSoup is external: `soup_title` stands for
`soup.title.string or ""`, `soup_text` for `soup.get_text(...)`, and
`links_from base_url html` for the whole `soup.find_all("a", ...)` loop
(protocol filtering, urljoin, defrag, host checks). The response headers
are reduced to their `Content-Type` value. -/

/-- Python's `str.split()`: maximal runs of non-whitespace characters. -/
def pySplitWs (s : String) : List String :=
  (runsAux (fun c => !(isAsciiWs c)) [] s.data).map String.mk

structure RawResponse where
  content : List Nat
  content_type : String

structure Response where
  status : Int
  url : String
  raw_response : Option RawResponse

def extract_next_links (soup_title soup_text : String → String)
    (links_from : String → String → List String)
    (url : String) (resp : Response) : List String :=
  if resp.status ≠ 200 then []
  else
    match resp.raw_response with
    | none => []
    | some raw =>
      if raw.content = [] then []
      else
        let content_type := pyLower raw.content_type
        if hasSubstr content_type "text" = false ∧ hasSubstr content_type "html" = false then []
        else if 10 * 1024 * 1024 < raw.content.length then []
        else
          let html := utf8DecodeStr true raw.content
          let title := pyLower (soup_title html)
          if soup_title html ≠ "" ∧
              (hasSubstr title "index of" = true ∨
               hasSubstr title "404" = true ∨ hasSubstr title "page not found" = true ∨
               hasSubstr title "500" = true ∨ hasSubstr title "internal server error" = true) then
            []
          else
            let text := soup_text html
            if (pySplitWs text).length < 50 then []
            else
              let tl := pyLower text
              if hasSubstr tl "page not found" = true ∨ hasSubstr tl "no results found" = true then
                []
              else
                let base_url := if resp.url ≠ "" then resp.url else url
                links_from base_url html

/-- Claim C10: `extract_next_links` returns the empty list — so nothing from
that page can be enqueued — whenever the status is not 200, the body is
missing or empty, the Content-Type mentions neither "text" nor "html", the
body exceeds 10 MiB, the title indicates a directory listing or a 404/500
error, the visible text has fewer than 50 words, or the text contains
"page not found" / "no results found". -/
theorem extract_next_links_guards (soup_title soup_text : String → String)
    (links_from : String → String → List String) (url : String) (resp : Response)
    (h : resp.status ≠ 200 ∨
      resp.raw_response = none ∨
      ∃ raw, resp.raw_response = some raw ∧
        (raw.content = [] ∨
         (hasSubstr (pyLower raw.content_type) "text" = false ∧
          hasSubstr (pyLower raw.content_type) "html" = false) ∨
         10 * 1024 * 1024 < raw.content.length ∨
         (soup_title (utf8DecodeStr true raw.content) ≠ "" ∧
           (hasSubstr (pyLower (soup_title (utf8DecodeStr true raw.content))) "index of" = true ∨
            hasSubstr (pyLower (soup_title (utf8DecodeStr true raw.content))) "404" = true ∨
            hasSubstr (pyLower (soup_title (utf8DecodeStr true raw.content))) "page not found" = true ∨
            hasSubstr (pyLower (soup_title (utf8DecodeStr true raw.content))) "500" = true ∨
            hasSubstr (pyLower (soup_title (utf8DecodeStr true raw.content))) "internal server error" = true)) ∨
         (pySplitWs (soup_text (utf8DecodeStr true raw.content))).length < 50 ∨
         (hasSubstr (pyLower (soup_text (utf8DecodeStr true raw.content))) "page not found" = true ∨
          hasSubstr (pyLower (soup_text (utf8DecodeStr true raw.content))) "no results found" = true))) :
    extract_next_links soup_title soup_text links_from url resp = [] := by
  unfold extract_next_links
  by_cases hst : resp.status ≠ 200
  · rw [if_pos hst]
  · rw [if_neg hst]
    rcases h with h | h | ⟨raw, hraw, hcond⟩
    · exact absurd h hst
    · rw [h]
    · rw [hraw]
      dsimp only
      split_ifs with h1 h2 h3 h4 h5 h6 h7 <;> try rfl
      all_goals exfalso
      all_goals rcases hcond with hc | hc | hc | hc | hc | hc <;>
        first
          | exact h1 hc
          | exact h2 hc
          | exact h3 hc
          | exact h4 hc
          | exact h5 hc
          | exact h6 hc

theorem extract_next_links_guards_witness :
    (((404 : Int) ≠ 200 ∨ (Response.mk 404 "" none).raw_response = none ∨
        ∃ raw, (Response.mk 404 "" none).raw_response = some raw ∧
          (raw.content = [] ∨
           (hasSubstr (pyLower raw.content_type) "text" = false ∧
            hasSubstr (pyLower raw.content_type) "html" = false) ∨
           10 * 1024 * 1024 < raw.content.length ∨
           ((fun _ : String => "") (utf8DecodeStr true raw.content) ≠ "" ∧
             (hasSubstr (pyLower ((fun _ : String => "") (utf8DecodeStr true raw.content))) "index of" = true ∨
              hasSubstr (pyLower ((fun _ : String => "") (utf8DecodeStr true raw.content))) "404" = true ∨
              hasSubstr (pyLower ((fun _ : String => "") (utf8DecodeStr true raw.content))) "page not found" = true ∨
              hasSubstr (pyLower ((fun _ : String => "") (utf8DecodeStr true raw.content))) "500" = true ∨
              hasSubstr (pyLower ((fun _ : String => "") (utf8DecodeStr true raw.content))) "internal server error" = true)) ∨
           (pySplitWs ((fun _ : String => "") (utf8DecodeStr true raw.content))).length < 50 ∨
           (hasSubstr (pyLower ((fun _ : String => "") (utf8DecodeStr true raw.content))) "page not found" = true ∨
            hasSubstr (pyLower ((fun _ : String => "") (utf8DecodeStr true raw.content))) "no results found" = true))) ∧
      extract_next_links (fun _ => "") (fun _ => "") (fun _ _ => ["http://x.ics.uci.edu/"]) "u"
        (Response.mk 404 "" none) = []) :=
  ⟨Or.inl (by decide),
    extract_next_links_guards (fun _ => "") (fun _ => "") (fun _ _ => ["http://x.ics.uci.edu/"]) "u"
      (Response.mk 404 "" none) (Or.inl (by decide))⟩
